import Mathlib

/-!
Verification of `src/download_invoices.py` (invoice downloader).

The Python source is shallowly embedded below:
* decimal formatting of counters (Python f-strings `f"invoice_{i}"`,
  `f"{base}_{counter}{ext}"`) is modelled by `natStr`;
* `pathlib.Path.stem` / `.suffix` by `splitStemExt`;
* Python `str.strip` / `str.split()` by `pyStrip` / `pySplit`;
* the filename-collision `while` loop (lines 140-146) by `resolveLoop` /
  `resolveName`, where the output directory's contents are a `List String`
  of file names;
* the per-item body of the download loop (lines 104-170) by `stepItem`,
  driven by an `ItemEnv` describing what the page and the download
  subsystem do at that iteration, and the whole of
  `download_all_invoices` by `download_all_invoices`;
* the page-interaction trace of the loop (fresh locator query, click) by
  `iterTrace` / `runTrace`;
* the authentication gate of `main` (lines 198-203) by `readyGate`, and
  `main`'s date-range guard (line 212) by `dateRangeAttempted` / `runMain`.
-/

namespace InvoiceFinder

/-! ### Decimal formatting (Python f-string `{n}`) -/

/-- Digits of `n` in decimal, least significant first; `[]` for `0`.
Fuel-structured so that the kernel can evaluate it; `fuel ≥ n` suffices. -/
def natDigitsRevF : Nat → Nat → List Char
  | _, 0 => []
  | 0, _ + 1 => []
  | f + 1, n + 1 => Nat.digitChar ((n + 1) % 10) :: natDigitsRevF f ((n + 1) / 10)

def natDigitsRev (n : Nat) : List Char := natDigitsRevF n n

/-- Decimal representation of a natural number, as produced by Python's
`str(n)` / f-string formatting. -/
def natStr (n : Nat) : String :=
  if n = 0 then "0" else ⟨(natDigitsRev n).reverse⟩

/-- Numeric value of a decimal digit character. -/
def digitVal (c : Char) : Nat := c.toNat - 48

/-- Value reconstructed from a least-significant-first digit list. -/
def valRev : List Char → Nat
  | [] => 0
  | c :: cs => digitVal c + 10 * valRev cs

theorem digitVal_digitChar {d : Nat} (h : d < 10) :
    digitVal (Nat.digitChar d) = d := by
  interval_cases d <;> rfl

theorem natDigitsRevF_eq {f g n : Nat} (hf : n ≤ f) (hg : n ≤ g) :
    natDigitsRevF f n = natDigitsRevF g n := by
  induction f generalizing g n with
  | zero =>
    interval_cases n
    cases g <;> rfl
  | succ f ih =>
    cases n with
    | zero => cases g <;> rfl
    | succ n =>
      cases g with
      | zero => omega
      | succ g =>
        simp only [natDigitsRevF]
        congr 1
        exact ih (by omega) (by omega)

theorem valRev_natDigitsRevF {f n : Nat} (hf : n ≤ f) :
    valRev (natDigitsRevF f n) = n := by
  induction f generalizing n with
  | zero =>
    interval_cases n
    rfl
  | succ f ih =>
    cases n with
    | zero => rfl
    | succ n =>
      simp only [natDigitsRevF, valRev]
      rw [ih (by omega)]
      rw [digitVal_digitChar (Nat.mod_lt _ (by omega))]
      omega

theorem valRev_natDigitsRev (n : Nat) : valRev (natDigitsRev n) = n :=
  valRev_natDigitsRevF le_rfl

theorem natDigitsRev_inj {m n : Nat} (h : natDigitsRev m = natDigitsRev n) :
    m = n := by
  have hm := valRev_natDigitsRev m
  rw [h, valRev_natDigitsRev] at hm
  exact hm.symm

theorem natDigitsRev_zero_iff {n : Nat} : natDigitsRev n = [] ↔ n = 0 := by
  constructor
  · intro h
    have := valRev_natDigitsRev n
    rw [h] at this
    exact this.symm
  · intro h; subst h; rfl

theorem natStr_data_inj {m n : Nat} (h : (natStr m).data = (natStr n).data) :
    m = n := by
  unfold natStr at h
  by_cases hm : m = 0 <;> by_cases hn : n = 0 <;>
    simp [hm, hn] at h ⊢
  · -- m = 0, n ≠ 0 : ['0'] = (natDigitsRev n).reverse
    exfalso
    have hrev : natDigitsRev n = ['0'] := by
      have := congrArg List.reverse h
      simpa using this.symm
    have := valRev_natDigitsRev n
    rw [hrev] at this
    simp [valRev, digitVal] at this
    exact hn this.symm
  · exfalso
    have hrev : natDigitsRev m = ['0'] := by
      have := congrArg List.reverse h
      simpa using this
    have := valRev_natDigitsRev m
    rw [hrev] at this
    simp [valRev, digitVal] at this
    exact hm this.symm
  · exact natDigitsRev_inj h

/-! ### `pathlib.Path.stem` and `.suffix` -/

/-- Index of the last `.` in the character list, if any
(CPython's `name.rfind('.')`). -/
def rfindDot (cs : List Char) : Option Nat :=
  ((List.range cs.length).filter (fun i => cs.getD i ' ' = '.')).getLast?

/-- Split a file name into `(stem, suffix)` the way `pathlib.Path.stem` and
`pathlib.Path.suffix` do: the suffix starts at the last dot, provided that
dot is neither the first nor the last character. -/
def splitStemExt (name : String) : String × String :=
  let cs := name.data
  match rfindDot cs with
  | some i =>
    if 0 < i ∧ i + 1 < cs.length then (⟨cs.take i⟩, ⟨cs.drop i⟩)
    else (name, "")
  | none => (name, "")

/-! ### Filename collision resolution (lines 139-146) -/

/-- The candidate name `f"{base}_{counter}{ext}"` tried by the collision
loop for counter value `k`. -/
def candidate (base ext : String) (k : Nat) : String :=
  base ++ "_" ++ natStr k ++ ext

theorem candidate_inj (base ext : String) :
    Function.Injective (candidate base ext) := by
  intro m n h
  unfold candidate at h
  have hdata := congrArg String.data h
  simp only [String.data_append] at hdata
  have h1 := List.append_cancel_right hdata
  have h2 := List.append_cancel_left h1
  exact natStr_data_inj h2

/-- The `while save_path.exists()` loop of lines 143-146: starting from
counter value `c`, return the first candidate that is not among the
existing names `fs`.  `fuel` bounds the number of probes; the real loop is
unbounded, and `exists_free_candidate` below shows `fs.length + 1` probes
always suffice. -/
def resolveLoop (fs : List String) (base ext : String) : Nat → Nat → Option String
  | _, 0 => none
  | c, fuel + 1 =>
    if candidate base ext c ∈ fs then resolveLoop fs base ext (c + 1) fuel
    else some (candidate base ext c)

/-- Among any `fs.length + 1` consecutive candidates, one is free:
the candidates are pairwise distinct, so they cannot all be in `fs`. -/
theorem exists_free_candidate (fs : List String) (base ext : String) (c : Nat) :
    ∃ k, c ≤ k ∧ k < c + (fs.length + 1) ∧ candidate base ext k ∉ fs := by
  by_contra hall
  push_neg at hall
  have hsub : (Finset.range (fs.length + 1)).image
      (fun j => candidate base ext (c + j)) ⊆ fs.toFinset := by
    intro x hx
    simp only [Finset.mem_image, Finset.mem_range] at hx
    obtain ⟨j, hj, rfl⟩ := hx
    exact List.mem_toFinset.mpr (hall _ (Nat.le_add_right c j) (by omega))
  have hinj : Function.Injective (fun j => candidate base ext (c + j)) := by
    intro a b hab
    have := candidate_inj base ext hab
    omega
  have hcard := Finset.card_le_card hsub
  rw [Finset.card_image_of_injective _ hinj, Finset.card_range] at hcard
  have := List.toFinset_card_le fs
  omega

theorem resolveLoop_sound (fs : List String) (base ext : String)
    (fuel c : Nat)
    (hex : ∃ k, c ≤ k ∧ k < c + fuel ∧ candidate base ext k ∉ fs) :
    ∃ k, c ≤ k ∧ candidate base ext k ∉ fs ∧
      (∀ j, c ≤ j → j < k → candidate base ext j ∈ fs) ∧
      resolveLoop fs base ext c fuel = some (candidate base ext k) := by
  induction fuel generalizing c with
  | zero =>
    obtain ⟨k, h1, h2, _⟩ := hex
    omega
  | succ fuel ih =>
    by_cases hc : candidate base ext c ∈ fs
    · obtain ⟨k, hk1, hk2, hk3⟩ := hex
      have hkc : k ≠ c := fun h => hk3 (h ▸ hc)
      obtain ⟨k', h1, h2, h3, h4⟩ := ih (c + 1) ⟨k, by omega, by omega, hk3⟩
      refine ⟨k', by omega, h2, ?_, ?_⟩
      · intro j hj1 hj2
        rcases Nat.eq_or_lt_of_le hj1 with h | h
        · exact h ▸ hc
        · exact h3 j h hj2
      · simp only [resolveLoop, if_pos hc]
        exact h4
    · exact ⟨c, le_rfl, hc, fun j h1 h2 => absurd (by omega : c < c) (by omega),
        by simp only [resolveLoop, if_neg hc]⟩

/-- Lines 139-146 of `download_all_invoices`: given the set of names `fs`
already present in the output directory, pick the save name for proposed
name `proposed` — the proposal itself when free, otherwise the first free
`f"{base}_{counter}{ext}"`.  The fuel `fs.length + 1` provably suffices
(`exists_free_candidate`), so the `getD` default is dead code. -/
def resolveName (fs : List String) (proposed : String) : String :=
  if proposed ∈ fs then
    let se := splitStemExt proposed
    (resolveLoop fs se.1 se.2 1 (fs.length + 1)).getD proposed
  else proposed

theorem resolveName_spec (fs : List String) (proposed : String)
    (h : proposed ∈ fs) :
    ∃ k, 1 ≤ k ∧
      candidate (splitStemExt proposed).1 (splitStemExt proposed).2 k ∉ fs ∧
      (∀ j, 1 ≤ j → j < k →
        candidate (splitStemExt proposed).1 (splitStemExt proposed).2 j ∈ fs) ∧
      resolveName fs proposed =
        candidate (splitStemExt proposed).1 (splitStemExt proposed).2 k := by
  obtain ⟨k, h1, h2, h3, h4⟩ := resolveLoop_sound fs
    (splitStemExt proposed).1 (splitStemExt proposed).2 (fs.length + 1) 1
    (exists_free_candidate fs _ _ 1)
  refine ⟨k, h1, h2, h3, ?_⟩
  unfold resolveName
  rw [if_pos h]
  show (resolveLoop fs (splitStemExt proposed).1 (splitStemExt proposed).2 1
    (fs.length + 1)).getD proposed = _
  rw [h4]
  rfl

theorem resolveName_not_mem (fs : List String) (proposed : String) :
    resolveName fs proposed ∉ fs := by
  by_cases h : proposed ∈ fs
  · obtain ⟨k, _, h2, _, h4⟩ := resolveName_spec fs proposed h
    rw [h4]; exact h2
  · unfold resolveName
    rw [if_neg h]
    exact h

/-! ### Python `str.strip` and `str.split()` (lines 118-122) -/

/-- Python `str.strip()`: drop whitespace from both ends. -/
def pyStrip (cs : List Char) : List Char :=
  ((cs.dropWhile Char.isWhitespace).reverse.dropWhile Char.isWhitespace).reverse

/-- Python `str.split()` with no separator, fuel-structured: split on runs
of whitespace, discarding empty pieces.  `fuel ≥ cs.length` suffices. -/
def pySplitF : Nat → List Char → List (List Char)
  | _, [] => []
  | 0, _ :: _ => []
  | f + 1, c :: rest =>
    if c.isWhitespace then pySplitF f rest
    else (c :: rest.takeWhile (fun d => !d.isWhitespace)) ::
      pySplitF f (rest.dropWhile (fun d => !d.isWhitespace))

def pySplit (cs : List Char) : List (List Char) := pySplitF cs.length cs

/-- Lines 115-122 of `download_all_invoices`: the invoice identifier for
ordinal `i`, given the row-header cell's text (`none` when the row has no
header cell, `some t` when `inner_text()` returns `t`): default
`f"invoice_{i}"`, overridden by the first whitespace token of the
stripped header text when that text is non-empty. -/
def invoiceId (i : Nat) (header : Option String) : String :=
  match header with
  | none => "invoice_" ++ natStr i
  | some t =>
    let ht := pyStrip t.data
    if ht = [] then "invoice_" ++ natStr i
    else
      match pySplit ht with
      | [] => "invoice_" ++ natStr i
      | p :: _ => ⟨p⟩

/-! ### The per-item download loop (lines 104-170) -/

/-- Per-item outcome, as in the spec's `DownloadResult.outcome`. -/
inductive Outcome
  | Saved
  | TimedOut
  | Empty
  | Error
deriving DecidableEq, Repr

/-- Per-item result record. `savedPath` is present only for `Saved`. -/
structure DownloadResult where
  ordinal : Nat
  identifier : String
  outcome : Outcome
  savedPath : Option String
  sizeBytes : Option Nat
deriving DecidableEq, Repr

/-- What the page and download subsystem do at one iteration of the loop:
either `expect_download` times out (`timeout`), some other exception is
raised during steps (b)-(g) (`exc`), or a download completes (`ok`) with
the given `suggested_filename` (`""` when absent), resulting file size,
and whether the file actually exists after `save_as`. -/
inductive ItemEvent
  | timeout
  | exc (msg : String)
  | ok (suggested : String) (size : Nat) (savedOk : Bool)
deriving DecidableEq, Repr

/-- Environment for one iteration: the row-header text visible to the
identifier extraction, and the download event. -/
structure ItemEnv where
  header : Option String
  event : ItemEvent
deriving DecidableEq, Repr

/-- Mutable state threaded through the loop: names present in the output
directory, the `downloaded` counter, and the per-item results so far. -/
structure RunState where
  fs : List String
  downloaded : Nat
  results : List DownloadResult
deriving DecidableEq, Repr

/-- Body of the `for i in range(1, total + 1)` loop (lines 104-170) for
ordinal `i`.  `timeout`/`exc` are the two `except` arms (lines 167-170);
otherwise the proposed name is the suggested filename or
`f"{invoice_id}.pdf"` (lines 133-137), collisions are resolved
(lines 139-146), the file is saved, and the existence and size checks of
lines 150-159 run: a missing file is a warning-and-continue (`Error`), a
0-byte file is unlinked (`Empty`), otherwise the item is `Saved` and the
counter incremented (lines 161-162). -/
def stepItem (st : RunState) (i : Nat) (env : ItemEnv) : RunState :=
  let id := invoiceId i env.header
  match env.event with
  | .timeout =>
    { st with results := st.results ++ [⟨i, id, .TimedOut, none, none⟩] }
  | .exc _ =>
    { st with results := st.results ++ [⟨i, id, .Error, none, none⟩] }
  | .ok suggested size savedOk =>
    let proposed := if suggested = "" then id ++ ".pdf" else suggested
    let path := resolveName st.fs proposed
    if savedOk then
      let fs1 := st.fs ++ [path]
      if size = 0 then
        { st with fs := fs1.erase path,
                  results := st.results ++ [⟨i, id, .Empty, none, some 0⟩] }
      else
        { st with fs := fs1,
                  downloaded := st.downloaded + 1,
                  results := st.results ++ [⟨i, id, .Saved, some path, some size⟩] }
    else
      { st with results := st.results ++ [⟨i, id, .Error, none, none⟩] }

/-- The loop itself, from ordinal `i` with state `st`. -/
def runFrom : RunState → Nat → List ItemEnv → RunState
  | st, _, [] => st
  | st, i, e :: rest => runFrom (stepItem st i e) (i + 1) rest

/-- `download_all_invoices(page, download_path)` (lines 92-172): `envs`
lists, per visible download button, what happens at that iteration, and
`fs0` is the initial contents of the output directory.  `total` is
`envs.length`; a zero count returns immediately (lines 97-99). -/
def download_all_invoices (fs0 : List String) (envs : List ItemEnv) : RunState :=
  if envs.length = 0 then ⟨fs0, 0, []⟩
  else runFrom ⟨fs0, 0, []⟩ 1 envs

/-! ### A factored view of `stepItem`, for the loop invariants -/

/-- The result record `stepItem` appends for ordinal `i` when the output
directory holds `fs`. -/
def itemResult (fs : List String) (i : Nat) (env : ItemEnv) : DownloadResult :=
  let id := invoiceId i env.header
  match env.event with
  | .timeout => ⟨i, id, .TimedOut, none, none⟩
  | .exc _ => ⟨i, id, .Error, none, none⟩
  | .ok suggested size savedOk =>
    let proposed := if suggested = "" then id ++ ".pdf" else suggested
    let path := resolveName fs proposed
    if savedOk then
      if size = 0 then ⟨i, id, .Empty, none, some 0⟩
      else ⟨i, id, .Saved, some path, some size⟩
    else ⟨i, id, .Error, none, none⟩

/-- The output-directory contents after `stepItem`. -/
def itemFs (fs : List String) (i : Nat) (env : ItemEnv) : List String :=
  let id := invoiceId i env.header
  match env.event with
  | .timeout => fs
  | .exc _ => fs
  | .ok suggested size savedOk =>
    let proposed := if suggested = "" then id ++ ".pdf" else suggested
    let path := resolveName fs proposed
    if savedOk then
      if size = 0 then (fs ++ [path]).erase path
      else fs ++ [path]
    else fs

/-- The outcome is a function of the iteration's event alone. -/
def eventOutcome : ItemEvent → Outcome
  | .timeout => .TimedOut
  | .exc _ => .Error
  | .ok _ size savedOk =>
    if savedOk then (if size = 0 then .Empty else .Saved) else .Error

theorem stepItem_eq (st : RunState) (i : Nat) (env : ItemEnv) :
    stepItem st i env =
      ⟨itemFs st.fs i env,
       st.downloaded +
         (if (itemResult st.fs i env).outcome = .Saved then 1 else 0),
       st.results ++ [itemResult st.fs i env]⟩ := by
  obtain ⟨header, event⟩ := env
  cases event with
  | timeout => simp [stepItem, itemResult, itemFs]
  | exc m => simp [stepItem, itemResult, itemFs]
  | ok suggested size savedOk =>
    cases savedOk with
    | false => simp [stepItem, itemResult, itemFs]
    | true =>
      by_cases hz : size = 0 <;>
        simp [stepItem, itemResult, itemFs, hz]

theorem itemResult_ordinal (fs : List String) (i : Nat) (env : ItemEnv) :
    (itemResult fs i env).ordinal = i := by
  obtain ⟨header, event⟩ := env
  cases event with
  | timeout => rfl
  | exc m => rfl
  | ok suggested size savedOk =>
    cases savedOk with
    | false => rfl
    | true => by_cases hz : size = 0 <;> simp [itemResult, hz]

theorem itemResult_identifier (fs : List String) (i : Nat) (env : ItemEnv) :
    (itemResult fs i env).identifier = invoiceId i env.header := by
  obtain ⟨header, event⟩ := env
  cases event with
  | timeout => rfl
  | exc m => rfl
  | ok suggested size savedOk =>
    cases savedOk with
    | false => rfl
    | true => by_cases hz : size = 0 <;> simp [itemResult, hz]

theorem itemResult_outcome (fs : List String) (i : Nat) (env : ItemEnv) :
    (itemResult fs i env).outcome = eventOutcome env.event := by
  obtain ⟨header, event⟩ := env
  cases event with
  | timeout => rfl
  | exc m => rfl
  | ok suggested size savedOk =>
    cases savedOk with
    | false => rfl
    | true => by_cases hz : size = 0 <;> simp [itemResult, eventOutcome, hz]

theorem itemResult_savedPath_not_mem (fs : List String) (i : Nat)
    (env : ItemEnv) {p : String}
    (h : (itemResult fs i env).savedPath = some p) : p ∉ fs := by
  obtain ⟨header, event⟩ := env
  cases event with
  | timeout => simp [itemResult] at h
  | exc m => simp [itemResult] at h
  | ok suggested size savedOk =>
    cases savedOk with
    | false => simp [itemResult] at h
    | true =>
      by_cases hz : size = 0
      · simp [itemResult, hz] at h
      · simp [itemResult, hz] at h
        exact h ▸ resolveName_not_mem fs _

theorem itemFs_eq (fs : List String) (i : Nat) (env : ItemEnv) :
    itemFs fs i env = fs ++ (itemResult fs i env).savedPath.toList := by
  obtain ⟨header, event⟩ := env
  cases event with
  | timeout => simp [itemResult, itemFs]
  | exc m => simp [itemResult, itemFs]
  | ok suggested size savedOk =>
    cases savedOk with
    | false => simp [itemResult, itemFs]
    | true =>
      by_cases hz : size = 0
      · simp only [itemFs, itemResult, hz, if_pos, if_true]
        rw [List.erase_append_right _ (resolveName_not_mem fs _)]
        simp
      · simp [itemResult, itemFs, hz]

/-! ### Loop invariants -/

/-- The saved paths appearing in a result list, in order. -/
def savedPaths (rs : List DownloadResult) : List String :=
  rs.filterMap (fun r => r.savedPath)

theorem savedPaths_cons (r : DownloadResult) (rs : List DownloadResult) :
    savedPaths (r :: rs) = r.savedPath.toList ++ savedPaths rs := by
  cases h : r.savedPath <;> simp [savedPaths, List.filterMap_cons, h]

/-- Master invariant of the download loop: running from state `st` appends
one result per environment entry; the directory gains exactly the saved
paths; the counter gains exactly the number of `Saved` results; every
saved path is new and they are pairwise distinct; and each result's
ordinal, outcome and identifier match its iteration. -/
theorem runFrom_master (envs : List ItemEnv) (st : RunState) (i : Nat) :
    ∃ rs : List DownloadResult,
      (runFrom st i envs).results = st.results ++ rs ∧
      rs.length = envs.length ∧
      (runFrom st i envs).fs = st.fs ++ savedPaths rs ∧
      (runFrom st i envs).downloaded =
        st.downloaded + (rs.filter (fun r => r.outcome = .Saved)).length ∧
      (∀ p ∈ savedPaths rs, p ∉ st.fs) ∧
      (savedPaths rs).Pairwise (fun a b => a ≠ b) ∧
      (∀ k env, envs[k]? = some env → ∃ r, rs[k]? = some r ∧
        r.ordinal = i + k ∧ r.outcome = eventOutcome env.event ∧
        r.identifier = invoiceId (i + k) env.header) := by
  induction envs generalizing st i with
  | nil =>
    exact ⟨[], by simp [runFrom], rfl, by simp [runFrom, savedPaths],
      by simp [runFrom], by simp [savedPaths], by simp [savedPaths],
      by intro k env h; simp at h⟩
  | cons e rest ih =>
    obtain ⟨rs', h1, h2, h3, h4, h5, h6, h7⟩ := ih (stepItem st i e) (i + 1)
    refine ⟨itemResult st.fs i e :: rs', ?_, ?_, ?_, ?_, ?_, ?_, ?_⟩
    · show (runFrom (stepItem st i e) (i + 1) rest).results = _
      rw [h1, stepItem_eq]
      simp
    · simpa using h2
    · show (runFrom (stepItem st i e) (i + 1) rest).fs = _
      rw [h3, stepItem_eq]
      simp only [savedPaths_cons]
      rw [← List.append_assoc, ← itemFs_eq]
    · show (runFrom (stepItem st i e) (i + 1) rest).downloaded = _
      rw [h4, stepItem_eq]
      simp only [List.filter_cons]
      by_cases hs : (itemResult st.fs i e).outcome = .Saved <;>
        simp [hs, Nat.add_assoc, Nat.add_comm 1]
    · intro p hp
      rw [savedPaths_cons] at hp
      rcases List.mem_append.mp hp with hp | hp
      · cases h : (itemResult st.fs i e).savedPath with
        | none => rw [h] at hp; simp at hp
        | some q =>
          rw [h] at hp
          simp at hp
          exact hp ▸ itemResult_savedPath_not_mem st.fs i e h
      · have := h5 p hp
        rw [stepItem_eq, itemFs_eq] at this
        intro hmem
        exact this (List.mem_append.mpr (Or.inl hmem))
    · rw [savedPaths_cons]
      cases h : (itemResult st.fs i e).savedPath with
      | none => simpa using h6
      | some q =>
        simp only [Option.toList_some, List.singleton_append]
        refine List.Pairwise.cons ?_ h6
        intro p hp
        have := h5 p hp
        rw [stepItem_eq, itemFs_eq, h] at this
        simp at this
        intro hq
        exact this.2 hq.symm
    · intro k env hk
      cases k with
      | zero =>
        simp only [List.getElem?_cons_zero, Option.some.injEq] at hk
        refine ⟨itemResult st.fs i e, by simp, ?_, ?_, ?_⟩
        · rw [itemResult_ordinal]; omega
        · rw [itemResult_outcome, hk]
        · rw [itemResult_identifier, hk]; simp
      | succ k =>
        simp only [List.getElem?_cons_succ] at hk
        obtain ⟨r, hr1, hr2, hr3, hr4⟩ := h7 k env hk
        exact ⟨r, by simpa using hr1, by omega,
          hr3, by rw [hr4]; congr 1; omega⟩

/-! ### Heads of stripped text -/

theorem dropWhile_eq_cons_head_false {α : Type} {p : α → Bool} :
    ∀ {l : List α} {c : α} {rest : List α},
      l.dropWhile p = c :: rest → p c = false := by
  intro l
  induction l with
  | nil => intro c rest h; simp [List.dropWhile] at h
  | cons a t ih =>
    intro c rest h
    by_cases ha : p a
    · rw [List.dropWhile_cons_of_pos ha] at h
      exact ih h
    · rw [List.dropWhile_cons_of_neg ha] at h
      cases h
      exact Bool.of_not_eq_true ha

theorem pyStrip_front_dropWhile (cs : List Char) :
    pyStrip cs <+: cs.dropWhile Char.isWhitespace := by
  unfold pyStrip
  rw [← List.reverse_reverse (cs.dropWhile Char.isWhitespace)]
  rw [ List.reverse_prefix]
  simp only [List.reverse_reverse]
  exact List.dropWhile_suffix _

theorem pyStrip_head_not_ws {cs : List Char} {c : Char} {rest : List Char}
    (h : pyStrip cs = c :: rest) : c.isWhitespace = false := by
  obtain ⟨t, ht⟩ := pyStrip_front_dropWhile cs
  rw [h] at ht
  exact dropWhile_eq_cons_head_false ht.symm

/-! ### Claim C1 -/

/-- C1: the filename collision resolution implements the Filesystem Namer
contract.  If the proposed name is not in the directory it is returned
unchanged; otherwise the candidates `stem_1.ext`, `stem_2.ext`, … are
probed in increasing order and the first free one is returned.  In
particular, resolving `a.pdf` when `a.pdf` and `a_1.pdf` exist yields
`a_2.pdf`, and when nothing exists yields `a.pdf`. -/
theorem claim_C1_namer (fs : List String) (proposed : String) :
    (proposed ∉ fs → resolveName fs proposed = proposed) ∧
    (proposed ∈ fs → ∃ k, 1 ≤ k ∧
      resolveName fs proposed =
        candidate (splitStemExt proposed).1 (splitStemExt proposed).2 k ∧
      candidate (splitStemExt proposed).1 (splitStemExt proposed).2 k ∉ fs ∧
      (∀ j, 1 ≤ j → j < k →
        candidate (splitStemExt proposed).1 (splitStemExt proposed).2 j ∈ fs)) ∧
    resolveName ["a.pdf", "a_1.pdf"] "a.pdf" = "a_2.pdf" ∧
    resolveName [] "a.pdf" = "a.pdf" := by
  refine ⟨?_, ?_, by decide, by decide⟩
  · intro h
    unfold resolveName
    rw [if_neg h]
  · intro h
    obtain ⟨k, h1, h2, h3, h4⟩ := resolveName_spec fs proposed h
    exact ⟨k, h1, h4, h2, h3⟩

/-- Witness for C1 at the spec's own example. -/
theorem claim_C1_witness :
    ("a.pdf" ∈ ["a.pdf", "a_1.pdf"]) ∧
    ∃ k, 1 ≤ k ∧
      resolveName ["a.pdf", "a_1.pdf"] "a.pdf" =
        candidate (splitStemExt "a.pdf").1 (splitStemExt "a.pdf").2 k ∧
      candidate (splitStemExt "a.pdf").1 (splitStemExt "a.pdf").2 k ∉
        ["a.pdf", "a_1.pdf"] ∧
      (∀ j, 1 ≤ j → j < k →
        candidate (splitStemExt "a.pdf").1 (splitStemExt "a.pdf").2 j ∈
          ["a.pdf", "a_1.pdf"]) :=
  ⟨by decide, (claim_C1_namer ["a.pdf", "a_1.pdf"] "a.pdf").2.1 (by decide)⟩

/-! ### Claim C8 -/

/-- C8: the identifier for ordinal `i` is the first whitespace-delimited
token of the row header's text when the header exists and its trimmed
text is non-empty, and exactly the synthetic `invoice_i` otherwise
(header absent, or text blank after trimming). -/
theorem claim_C8_identifier (i : Nat) :
    invoiceId i none = "invoice_" ++ natStr i
    ∧ (∀ t : String, pyStrip t.data = [] →
        invoiceId i (some t) = "invoice_" ++ natStr i)
    ∧ (∀ t : String, pyStrip t.data ≠ [] →
        invoiceId i (some t) =
          ⟨(pyStrip t.data).takeWhile (fun d => !d.isWhitespace)⟩) := by
  refine ⟨rfl, ?_, ?_⟩
  · intro t ht
    simp [invoiceId, ht]
  · intro t ht
    cases h : pyStrip t.data with
    | nil => exact absurd h ht
    | cons c rest =>
      have hc := pyStrip_head_not_ws h
      simp only [invoiceId, h]
      rw [if_neg (by simp)]
      simp only [pySplit, List.length_cons, pySplitF, hc, Bool.false_eq_true,
        if_false, List.takeWhile_cons, Bool.not_false, if_true]

/-- Witness for C8: a header with surrounding blanks and two tokens. -/
theorem claim_C8_witness :
    pyStrip ("  INV-001 due  ").data ≠ [] ∧
    invoiceId 7 (some "  INV-001 due  ") =
      ⟨(pyStrip ("  INV-001 due  ").data).takeWhile (fun d => !d.isWhitespace)⟩ :=
  ⟨by decide, (claim_C8_identifier 7).2.2 "  INV-001 due  " (by decide)⟩

/-! ### Run-level consequences of the master invariant -/

theorem download_master (fs0 : List String) (envs : List ItemEnv) :
    ∃ rs : List DownloadResult,
      (download_all_invoices fs0 envs).results = rs ∧
      rs.length = envs.length ∧
      (download_all_invoices fs0 envs).fs = fs0 ++ savedPaths rs ∧
      (download_all_invoices fs0 envs).downloaded =
        (rs.filter (fun r => r.outcome = .Saved)).length ∧
      (∀ p ∈ savedPaths rs, p ∉ fs0) ∧
      (savedPaths rs).Pairwise (fun a b => a ≠ b) ∧
      (∀ k env, envs[k]? = some env → ∃ r, rs[k]? = some r ∧
        r.ordinal = k + 1 ∧ r.outcome = eventOutcome env.event ∧
        r.identifier = invoiceId (k + 1) env.header) := by
  by_cases he : envs.length = 0
  · rw [List.length_eq_zero] at he
    subst he
    exact ⟨[], by simp [download_all_invoices], rfl,
      by simp [download_all_invoices, savedPaths],
      by simp [download_all_invoices], by simp [savedPaths],
      by simp [savedPaths], by intro k env h; simp at h⟩
  · obtain ⟨rs, h1, h2, h3, h4, h5, h6, h7⟩ :=
      runFrom_master envs ⟨fs0, 0, []⟩ 1
    unfold download_all_invoices
    rw [if_neg he]
    refine ⟨rs, by simpa using h1, h2, by simpa using h3,
      by simpa using h4, h5, h6, ?_⟩
    intro k env hk
    obtain ⟨r, hr1, hr2, hr3, hr4⟩ := h7 k env hk
    exact ⟨r, hr1, by omega, hr3, by rw [hr4]; congr 1; omega⟩

/-! ### Claim C2 -/

/-- The spec's duplicate-filename scenario: an empty output directory and
two consecutive downloads both suggesting `invoice.pdf`, with sizes 100
and 200 bytes. -/
def scenarioTwoDuplicates : RunState :=
  download_all_invoices []
    [⟨none, .ok "invoice.pdf" 100 true⟩, ⟨none, .ok "invoice.pdf" 200 true⟩]

/-- C2: all saved paths of a run are pairwise distinct and none of them
existed in the output directory when the run started; in the scenario of
two downloads both suggesting `invoice.pdf`, the first is saved as
`invoice.pdf`, the second as `invoice_1.pdf`, and both files exist with
non-zero sizes. -/
theorem claim_C2_unique_names (fs0 : List String) (envs : List ItemEnv) :
    (savedPaths (download_all_invoices fs0 envs).results).Pairwise
      (fun a b => a ≠ b) ∧
    (∀ p ∈ savedPaths (download_all_invoices fs0 envs).results, p ∉ fs0) ∧
    scenarioTwoDuplicates.results.map (fun r => r.savedPath) =
      [some "invoice.pdf", some "invoice_1.pdf"] ∧
    scenarioTwoDuplicates.fs = ["invoice.pdf", "invoice_1.pdf"] ∧
    scenarioTwoDuplicates.results.map (fun r => r.sizeBytes) =
      [some 100, some 200] := by
  obtain ⟨rs, h1, h2, h3, h4, h5, h6, h7⟩ := download_master fs0 envs
  rw [h1]
  exact ⟨h6, h5, by decide, by decide, by decide⟩

/-- Witness for C2: a run over a directory holding `b.pdf` saves `a.pdf`,
which was not present beforehand. -/
theorem claim_C2_witness :
    "a.pdf" ∈ savedPaths (download_all_invoices ["b.pdf"]
      [⟨none, .ok "a.pdf" 5 true⟩]).results ∧
    "a.pdf" ∉ ["b.pdf"] :=
  ⟨by decide,
   (claim_C2_unique_names ["b.pdf"] [⟨none, .ok "a.pdf" 5 true⟩]).2.1
     "a.pdf" (by decide)⟩

/-! ### Claim C3 -/

/-- C3: every iteration produces exactly one recorded result (the run
never aborts early and no per-item failure escapes: `stepItem` and
`download_all_invoices` are total functions into `RunState`); the result
for iteration `k` carries ordinal `k+1`, a download timeout is recorded
as `TimedOut`, and any other exception as `Error`. -/
theorem claim_C3_containment (fs0 : List String) (envs : List ItemEnv) :
    (download_all_invoices fs0 envs).results.length = envs.length ∧
    ∀ k env, envs[k]? = some env →
      ∃ r, (download_all_invoices fs0 envs).results[k]? = some r ∧
        r.ordinal = k + 1 ∧
        (env.event = .timeout → r.outcome = .TimedOut) ∧
        (∀ msg, env.event = .exc msg → r.outcome = .Error) := by
  obtain ⟨rs, h1, h2, h3, h4, h5, h6, h7⟩ := download_master fs0 envs
  rw [h1]
  refine ⟨h2, ?_⟩
  intro k env hk
  obtain ⟨r, hr1, hr2, hr3, hr4⟩ := h7 k env hk
  refine ⟨r, hr1, hr2, ?_, ?_⟩
  · intro he; rw [hr3, he]; rfl
  · intro msg he; rw [hr3, he]; rfl

/-- Witness for C3: a run whose single iteration raises an exception
still yields one `Error` result with ordinal 1. -/
theorem claim_C3_witness :
    ∃ r, (download_all_invoices [] [⟨none, .exc "boom"⟩]).results[0]? =
        some r ∧
      r.ordinal = 0 + 1 ∧
      ((⟨none, .exc "boom"⟩ : ItemEnv).event = .timeout →
        r.outcome = .TimedOut) ∧
      (∀ msg, (⟨none, .exc "boom"⟩ : ItemEnv).event = .exc msg →
        r.outcome = .Error) :=
  (claim_C3_containment [] [⟨none, .exc "boom"⟩]).2 0
    ⟨none, .exc "boom"⟩ (by decide)

/-! ### Claim C5 -/

/-- C5: when a download is persisted but the saved file has size 0, the
artifact is deleted (the directory returns to its prior contents and the
resolved path is not in it afterwards), the outcome recorded is `Empty`,
the `downloaded` counter is not incremented, and the loop continues with
the next ordinal. -/
theorem claim_C5_empty_file (st : RunState) (i : Nat) (env : ItemEnv)
    (suggested : String) (h : env.event = .ok suggested 0 true) :
    (stepItem st i env).fs = st.fs ∧
    resolveName st.fs
        (if suggested = "" then invoiceId i env.header ++ ".pdf"
         else suggested) ∉ (stepItem st i env).fs ∧
    (stepItem st i env).downloaded = st.downloaded ∧
    (stepItem st i env).results = st.results ++
      [⟨i, invoiceId i env.header, .Empty, none, some 0⟩] ∧
    (∀ rest : List ItemEnv,
      runFrom st i (env :: rest) = runFrom (stepItem st i env) (i + 1) rest) := by
  obtain ⟨header, event⟩ := env
  simp only at h
  subst h
  have hfs : (stepItem st i ⟨header, .ok suggested 0 true⟩).fs = st.fs := by
    simp only [stepItem]
    rw [List.erase_append_right _ (resolveName_not_mem st.fs _)]
    simp
  refine ⟨hfs, ?_, by simp [stepItem], by simp [stepItem], fun rest => rfl⟩
  rw [hfs]
  exact resolveName_not_mem st.fs _

/-- Witness for C5: a 0-byte download of `dup.pdf` into a directory
holding `x.pdf` leaves the directory unchanged. -/
theorem claim_C5_witness :
    ((⟨none, .ok "dup.pdf" 0 true⟩ : ItemEnv).event =
      .ok "dup.pdf" 0 true) ∧
    (stepItem ⟨["x.pdf"], 0, []⟩ 1 ⟨none, .ok "dup.pdf" 0 true⟩).fs =
      ["x.pdf"] :=
  ⟨rfl,
   (claim_C5_empty_file ⟨["x.pdf"], 0, []⟩ 1 ⟨none, .ok "dup.pdf" 0 true⟩
     "dup.pdf" rfl).1⟩

/-! ### Claim C6 -/

/-- C6: the value returned by the orchestrator (`downloaded`) equals the
number of results with outcome `Saved`, and `totalSaved` never exceeds
`totalFound` (the number of iteration environments, i.e. the initial
button count). -/
theorem claim_C6_saved_counter (fs0 : List String) (envs : List ItemEnv) :
    (download_all_invoices fs0 envs).downloaded =
      ((download_all_invoices fs0 envs).results.filter
        (fun r => r.outcome = .Saved)).length ∧
    (download_all_invoices fs0 envs).downloaded ≤ envs.length := by
  obtain ⟨rs, h1, h2, h3, h4, h5, h6, h7⟩ := download_master fs0 envs
  rw [h1, h4]
  exact ⟨rfl, le_trans (List.length_filter_le _ _) (le_of_eq h2)⟩

/-! ### Claim C7 -/

/-- C7: when the initial count of download buttons is zero the
orchestrator returns immediately with zero found items, an empty result
sequence, and an untouched output directory — not an error. -/
theorem claim_C7_zero_found (fs0 : List String) (envs : List ItemEnv)
    (h : envs.length = 0) :
    download_all_invoices fs0 envs = ⟨fs0, 0, []⟩ := by
  unfold download_all_invoices
  rw [if_pos h]

/-- Witness for C7. -/
theorem claim_C7_witness :
    ([] : List ItemEnv).length = 0 ∧
    download_all_invoices ["keep.pdf"] [] = ⟨["keep.pdf"], 0, []⟩ :=
  ⟨rfl, claim_C7_zero_found ["keep.pdf"] [] rfl⟩

/-! ### Page-interaction trace of the loop (claim C4) -/

/-- Page interactions performed by `download_all_invoices`:
the initial count (line 95), the fresh per-iteration locator query
(line 108), and the click on `buttons.nth(i - 1)` (line 128).
`clickButton iter handleIter idx` records that the click performed in
iteration `iter` used the element at position `idx` of the locator set
acquired in iteration `handleIter`. -/
inductive PageEv
  | countButtons
  | queryButtons (iter : Nat)
  | clickButton (iter : Nat) (handleIter : Nat) (idx : Nat)
deriving DecidableEq, Repr

/-- Page events of one iteration, lines 106-128: a fresh query of the
download-button set, then — unless an exception fired before the
download-triggering action — a click on position `i - 1` of the set just
acquired in this same iteration. -/
def iterTrace (i : Nat) (env : ItemEnv) : List PageEv :=
  match env.event with
  | .exc _ => [.queryButtons i]
  | _ => [.queryButtons i, .clickButton i i (i - 1)]

def runTraceFrom : Nat → List ItemEnv → List PageEv
  | _, [] => []
  | i, e :: rest => iterTrace i e ++ runTraceFrom (i + 1) rest

/-- All page interactions of `download_all_invoices` (the initial count,
then the per-iteration traffic of the loop). -/
def runTrace (envs : List ItemEnv) : List PageEv :=
  .countButtons :: (if envs.length = 0 then [] else runTraceFrom 1 envs)

theorem iterTrace_click {i : Nat} {env : ItemEnv} {ev : PageEv}
    (hmem : ev ∈ iterTrace i env) :
    ∀ j h idx, ev = PageEv.clickButton j h idx → h = j ∧ idx = j - 1 := by
  intro j h idx hev
  subst hev
  obtain ⟨header, event⟩ := env
  cases event <;> simp [iterTrace] at hmem <;>
    obtain ⟨rfl, rfl, rfl⟩ := hmem <;> exact ⟨rfl, rfl⟩

theorem runTraceFrom_click {envs : List ItemEnv} :
    ∀ {i : Nat} {ev : PageEv}, ev ∈ runTraceFrom i envs →
      ∀ j h idx, ev = PageEv.clickButton j h idx → h = j ∧ idx = j - 1 := by
  induction envs with
  | nil => intro i ev hmem; simp [runTraceFrom] at hmem
  | cons e rest ih =>
    intro i ev hmem
    rcases List.mem_append.mp hmem with hmem | hmem
    · exact iterTrace_click hmem
    · exact ih hmem

/-! ### Claim C4 -/

/-- C4: every click performed by the loop acts on an element taken from
the locator set queried in the same iteration, at position `i - 1`; no
handle from a previous iteration or from the initial count is ever
clicked, and each iteration's trace starts with its own fresh query. -/
theorem claim_C4_fresh_handles (envs : List ItemEnv) :
    (∀ ev ∈ runTrace envs, ∀ j h idx,
      ev = PageEv.clickButton j h idx → h = j ∧ idx = j - 1) ∧
    (∀ k env, envs[k]? = some env →
      iterTrace (k + 1) env = [.queryButtons (k + 1)] ∨
      iterTrace (k + 1) env =
        [.queryButtons (k + 1), .clickButton (k + 1) (k + 1) k]) := by
  constructor
  · intro ev hmem j h idx hev
    unfold runTrace at hmem
    rcases List.mem_cons.mp hmem with rfl | hmem
    · exact absurd hev (by simp)
    · by_cases he : envs.length = 0
      · rw [if_pos he] at hmem; simp at hmem
      · rw [if_neg he] at hmem
        exact runTraceFrom_click hmem j h idx hev
  · intro k env _
    obtain ⟨header, event⟩ := env
    cases event with
    | exc m => left; rfl
    | timeout => right; rfl
    | ok s n b => right; rfl

/-- Witness for C4: in a one-item run, the click of iteration 1 is on
position 0 of the set queried in iteration 1 itself. -/
theorem claim_C4_witness :
    PageEv.clickButton 1 1 0 ∈ runTrace [⟨none, .ok "f.pdf" 5 true⟩] ∧
    (1 = 1 ∧ 0 = 1 - 1) :=
  ⟨by decide,
   (claim_C4_fresh_handles [⟨none, .ok "f.pdf" 5 true⟩]).1
     (PageEv.clickButton 1 1 0) (by decide) 1 1 0 rfl⟩

/-! ### Authentication gate and `main` (claims C9 and C10) -/

/-- Python's substring test `pat in s`. -/
def strContains (s pat : String) : Bool :=
  (List.range (s.data.length + 1)).any
    (fun k => pat.data.isPrefixOf (s.data.drop k))

/-- Line 198: the current location indicates an unauthenticated state. -/
def isLoginUrl (url : String) : Bool :=
  strContains url "login.microsoftonline.com" ||
    strContains url "login.microsoft.com"

/-- Outcome of the page-readiness phase of `main` (lines 198-203). -/
inductive GateResult
  | authenticated
  | authTimeout
  | pageLoadTimeout
deriving DecidableEq, Repr

/-- Lines 198-203 together with `wait_for_authentication` (lines 28-41):
`markerTime` is the delay, in milliseconds, after which the post-login
marker `[aria-label="Invoice grid"]` becomes observable (`none` if it
never does).  On the login URL the wait is bounded by 300000 ms and a
timeout is re-raised (`authTimeout`); otherwise the wait is bounded by
60000 ms and a timeout raises (`pageLoadTimeout`). -/
def readyGate (url : String) (markerTime : Option Nat) : GateResult :=
  if isLoginUrl url then
    match markerTime with
    | some t => if t ≤ 300000 then .authenticated else .authTimeout
    | none => .authTimeout
  else
    match markerTime with
    | some t => if t ≤ 60000 then .authenticated else .pageLoadTimeout
    | none => .pageLoadTimeout

/-- Line 212: `if DATE_RANGE != "Past 3 months": change_date_range(...)`. -/
def dateRangeAttempted (dateRange : String) : Bool :=
  dateRange ≠ "Past 3 months"

/-- The body of `main` (lines 193-216): a gate failure propagates out of
the run (both timeouts raise, and `main` re-raises every exception);
otherwise the date-range change is attempted or skipped per line 212 and
the orchestrator runs. -/
def runMain (url : String) (markerTime : Option Nat) (dateRange : String)
    (fs0 : List String) (envs : List ItemEnv) :
    Except GateResult (Bool × RunState) :=
  match readyGate url markerTime with
  | .authenticated =>
    .ok (dateRangeAttempted dateRange, download_all_invoices fs0 envs)
  | e => .error e

/-! ### Claim C9 -/

/-- C9: on an identity-provider URL the run blocks for the post-login
marker with a 300000 ms bound and fails fatally with the authentication
timeout when the marker does not appear in time; when already
authenticated it waits at most 60000 ms for the same marker and fails
fatally with the page-load timeout; both failures propagate out of
`main` (the orchestrator never runs), and within the bounds the gate
succeeds. -/
theorem claim_C9_auth_gate (url : String) (markerTime : Option Nat)
    (dateRange : String) (fs0 : List String) (envs : List ItemEnv) :
    (isLoginUrl url = true →
      (∀ t, markerTime = some t → 300000 < t) →
      readyGate url markerTime = .authTimeout ∧
      runMain url markerTime dateRange fs0 envs = .error .authTimeout) ∧
    (isLoginUrl url = false →
      (∀ t, markerTime = some t → 60000 < t) →
      readyGate url markerTime = .pageLoadTimeout ∧
      runMain url markerTime dateRange fs0 envs = .error .pageLoadTimeout) ∧
    (isLoginUrl url = true → (∀ t, markerTime = some t → t ≤ 300000) →
      markerTime ≠ none → readyGate url markerTime = .authenticated) ∧
    (isLoginUrl url = false → (∀ t, markerTime = some t → t ≤ 60000) →
      markerTime ≠ none → readyGate url markerTime = .authenticated) := by
  refine ⟨?_, ?_, ?_, ?_⟩
  · intro hurl hmt
    have hg : readyGate url markerTime = .authTimeout := by
      unfold readyGate
      cases markerTime with
      | none => simp [hurl]
      | some t =>
        have ht := hmt t rfl
        simp only [hurl, if_true]
        rw [if_neg (by omega)]
    exact ⟨hg, by unfold runMain; rw [hg]⟩
  · intro hurl hmt
    have hg : readyGate url markerTime = .pageLoadTimeout := by
      unfold readyGate
      cases markerTime with
      | none => simp [hurl]
      | some t =>
        have ht := hmt t rfl
        simp only [hurl, Bool.false_eq_true, if_false]
        rw [if_neg (by omega)]
    exact ⟨hg, by unfold runMain; rw [hg]⟩
  · intro hurl hmt hne
    cases markerTime with
    | none => exact absurd rfl hne
    | some t =>
      unfold readyGate
      simp only [hurl, if_true]
      rw [if_pos (hmt t rfl)]
  · intro hurl hmt hne
    cases markerTime with
    | none => exact absurd rfl hne
    | some t =>
      unfold readyGate
      simp only [hurl, Bool.false_eq_true, if_false]
      rw [if_pos (hmt t rfl)]

/-- Witness for C9: navigation landed on the identity-provider URL and
the post-login marker never appears, so the run aborts with the
authentication timeout. -/
theorem claim_C9_witness :
    isLoginUrl "https://login.microsoftonline.com/common/oauth2" = true ∧
    readyGate "https://login.microsoftonline.com/common/oauth2" none =
      .authTimeout ∧
    runMain "https://login.microsoftonline.com/common/oauth2" none
      "Past 6 months" [] [] = .error .authTimeout :=
  ⟨by decide,
   (claim_C9_auth_gate "https://login.microsoftonline.com/common/oauth2"
     none "Past 6 months" [] []).1 (by decide)
     (fun t ht => nomatch ht)⟩

/-! ### Claim C10 -/

/-- C10: when the configured date range equals `"Past 3 months"` the
date-range interaction is skipped entirely, and for every other value it
is attempted; when the gate succeeds, `main` runs the orchestrator with
exactly that decision. -/
theorem claim_C10_date_range (dateRange : String) (url : String)
    (markerTime : Option Nat) (fs0 : List String) (envs : List ItemEnv) :
    (dateRange = "Past 3 months" → dateRangeAttempted dateRange = false) ∧
    (dateRange ≠ "Past 3 months" → dateRangeAttempted dateRange = true) ∧
    (readyGate url markerTime = .authenticated →
      runMain url markerTime dateRange fs0 envs =
        .ok (dateRangeAttempted dateRange, download_all_invoices fs0 envs)) := by
  refine ⟨?_, ?_, ?_⟩
  · intro h
    subst h
    decide
  · intro h
    simp [dateRangeAttempted, h]
  · intro h
    unfold runMain
    rw [h]

/-- Witness for C10: `"All"` triggers the date-range change, and with a
ready page `main` proceeds with that decision. -/
theorem claim_C10_witness :
    ("All" : String) ≠ "Past 3 months" ∧
    dateRangeAttempted "All" = true :=
  ⟨by decide,
   (claim_C10_date_range "All" "https://admin.cloud.microsoft/x"
     (some 10) [] []).2.1 (by decide)⟩

end InvoiceFinder
